import Mathlib

/-!
Verification development for the `aura-sdk` TypeScript client library
(`thedonmon/aura-sdk`).  The definitions below are a shallow embedding of the
library's core: the JSON value model and the JSON-RPC error classifier
(`src/types/errors.ts`), the tagged-union `Result` type (`src/types/result.ts`),
the request dispatcher `makeRequest` and the cached single-entity fetches
`getAsset` / `getAssetProof` (`src/sdk.ts`), the pagination generators
(`src/sdk.ts`), and the default in-memory cache backend (`MemoryCache`).

JavaScript runtime conventions used throughout the embedding:
  * a decoded JSON document is a `Json` value; property access on a non-object
    yields `none` (JS `undefined`);
  * JS truthiness: `null`/`undefined`/`false`/`0`/`""` are falsy, everything
    else (objects, arrays, non-empty strings, non-zero numbers) is truthy;
  * JS numbers carried by typed response fields are modelled as `Option Int`
    (`none` = the field is absent/`undefined` at runtime — the SDK performs no
    schema validation, so absence is observable); any comparison involving an
    absent operand is `NaN`-like and evaluates to `false`;
  * a promise that rejects is modelled with `Except Thrown`, where `Thrown`
    distinguishes `Error` instances from arbitrary thrown values.
-/

/-- A decoded JSON value.  Numbers are modelled as rationals: every JSON
number literal denotes a rational, and this keeps the distinction between
integer and non-integer numbers observable. -/
inductive Json where
  | null : Json
  | bool (b : Bool) : Json
  | num (q : ℚ) : Json
  | str (s : String) : Json
  | arr (elems : List Json) : Json
  | obj (fields : List (String × Json)) : Json

/-- JS truthiness of a JSON value. -/
def Json.truthy : Json → Bool
  | .null => false
  | .bool b => b
  | .num q => q != 0
  | .str s => s != ""
  | .arr _ => true
  | .obj _ => true

/-- JS property access `v.k`: `some` the field value on objects that have the
field, `none` (JS `undefined`) otherwise. -/
def Json.getField : Json → String → Option Json
  | .obj fields, k => fields.lookup k
  | _, _ => none

/-- Property access on a possibly-`undefined` base (used after a truthiness
guard, so the `none` case is unreachable in guarded positions). -/
def optField : Option Json → String → Option Json
  | some v, k => v.getField k
  | none, _ => none

/-- Truthiness of a possibly-`undefined` value (`undefined` is falsy). -/
def optTruthy : Option Json → Bool
  | some v => v.truthy
  | none => false

/-- JS strict equality test `x === "2.0"` on a possibly-`undefined` value. -/
def isStr20 : Option Json → Bool
  | some (.str s) => s == "2.0"
  | _ => false

/-- JS `typeof x === 'number'` on a possibly-`undefined` value. -/
def isNumField : Option Json → Bool
  | some (.num _) => true
  | _ => false

/-- JS `typeof x === 'string'` on a possibly-`undefined` value. -/
def isStrField : Option Json → Bool
  | some (.str _) => true
  | _ => false

/-- Whether a JSON value is an object (a "mapping"). -/
def Json.isObj : Json → Bool
  | .obj _ => true
  | _ => false

/-- Whether a possibly-`undefined` value is an object. -/
def isObjField : Option Json → Bool
  | some (.obj _) => true
  | _ => false

/-- Whether a possibly-`undefined` value is an integer JSON number. -/
def isIntField : Option Json → Bool
  | some (.num q) => q.den == 1
  | _ => false

/-- The error classifier from `src/types/errors.ts`:

    static isAuraErrorResponse(obj: any): obj is AuraErrorResponse {
      return (
        obj &&
        obj.jsonrpc === '2.0' &&
        obj.error &&
        typeof obj.error.code === 'number' &&
        typeof obj.error.message === 'string'
      );
    }

The chained `&&` is returned in boolean position, so the embedding returns the
boolean coercion of its value. -/
def AuraError.isAuraErrorResponse (o : Json) : Bool :=
  o.truthy
  && isStr20 (o.getField "jsonrpc")
  && optTruthy (o.getField "error")
  && isNumField (optField (o.getField "error") "code")
  && isStrField (optField (o.getField "error") "message")

/-- The predicate exactly as the specification words it: body is a mapping,
`jsonrpc` equals the literal `"2.0"`, an `error` field exists and is a
mapping, `error.code` is an *integer*, `error.message` is a string. -/
def specErrorShape (o : Json) : Bool :=
  o.isObj
  && isStr20 (o.getField "jsonrpc")
  && isObjField (o.getField "error")
  && isIntField (optField (o.getField "error") "code")
  && isStrField (optField (o.getField "error") "message")

/-- The specification predicate amended at the single point the code forces:
`error.code` may be any JSON *number*, not only an integer (the source tests
`typeof obj.error.code === 'number'`). -/
def amendedErrorShape (o : Json) : Bool :=
  o.isObj
  && isStr20 (o.getField "jsonrpc")
  && isObjField (o.getField "error")
  && isNumField (optField (o.getField "error") "code")
  && isStrField (optField (o.getField "error") "message")

/-- A JSON-RPC error body whose `error.code` is the non-integer number 3/2. -/
def nonIntCodeBody : Json :=
  Json.obj [("jsonrpc", Json.str "2.0"),
            ("error", Json.obj [("code", Json.num (mkRat 3 2)),
                                ("message", Json.str "boom")]),
            ("id", Json.num 1)]

/-- The tagged-union result type from `src/types/result.ts`:
`{ success: true; data: T } | { success: false; error: E }`. -/
inductive Result (T : Type) (E : Type) where
  | success (data : T) : Result T E
  | failure (error : E) : Result T E

/-- Discriminant check `isError` from `src/types/result.ts`
(`return !result.success`). -/
def isError : Result T E → Bool
  | .success _ => false
  | .failure _ => true

/-- A JS `Error` value as the SDK constructs them: either a plain
`new Error(message)` or `new AuraError(data)` built from the raw classified
response body (the constructor copies `error.code`, `error.message`,
`jsonrpc` and `id` out of that body, so carrying the body preserves it). -/
inductive JsError where
  | plain (message : String) : JsError
  | aura (data : Json) : JsError

/-- A value thrown by JS code: either an `Error` instance (with its message)
or an arbitrary non-`Error` value. -/
inductive Thrown where
  | errorInstance (message : String) : Thrown
  | nonError (value : Json) : Thrown

/-- The observable part of a `fetch` response: `ok`, `status`, and the result
of `response.json()` (which itself may throw on an undecodable body). -/
structure HttpResp where
  ok : Bool
  status : Nat
  json : Except Thrown Json

/-- The `catch` arm of `makeRequest`:
`error instanceof Error ? error : new Error('Unknown error occurred')`. -/
def wrapCaught : Thrown → JsError
  | .errorInstance m => .plain m
  | .nonError _ => .plain "Unknown error occurred"

/-- JS `try { body } catch (e) { handler }` for an exception-carrying
computation whose handler cannot itself throw. -/
def tryCatchE (body : Except Thrown α) (handler : Thrown → α) : α :=
  match body with
  | .ok a => a
  | .error t => handler t

/-- The `try` block of `Aura.makeRequest` (`src/sdk.ts` lines 32-67).  The
transport call `fetch(...)` is abstracted as its outcome: either a thrown
value (network failure) or an `HttpResp`.  Mirrors the source order:
non-`ok` status check, body decode, error classification, success. -/
def Aura.makeRequestBody (transport : Except Thrown HttpResp) :
    Except Thrown (Result Json JsError) := do
  let response ← transport
  if !response.ok then
    return .failure (.plain ("HTTP error! status: " ++ toString response.status))
  let data ← response.json
  if AuraError.isAuraErrorResponse data then
    return .failure (.aura data)
  return .success data

/-- `Aura.makeRequest` (`src/sdk.ts` lines 31-74): the `try` block wrapped in
the `catch` that converts any thrown value into a failure `Result`.  The outer
`Except` records whether the returned promise rejects. -/
def Aura.makeRequest (transport : Except Thrown HttpResp) :
    Except Thrown (Result Json JsError) :=
  match Aura.makeRequestBody transport with
  | .ok r => .ok r
  | .error t => .ok (.failure (wrapCaught t))

/-- Observable effects of a cached fetch: cache reads, cache writes and
dispatcher invocations, in program order. -/
inductive Event where
  | cacheGet (key : String) : Event
  | cacheSet (key value : String) (ttl : Nat) : Event
  | dispatchCall (method : String) : Event

/-- Whether an event is a cache write. -/
def Event.isSet : Event → Bool
  | .cacheSet _ _ _ => true
  | _ => false

/-- Whether an event is a dispatcher invocation. -/
def Event.isDispatch : Event → Bool
  | .dispatchCall _ => true
  | _ => false

/-- A cache backend as the SDK sees it (the `CacheProvider` capability):
`get` resolves to a stored value or `null`, `set` resolves or rejects.
`Except Thrown` records promise rejection. -/
structure CacheBackend where
  get : String → Except Thrown (Option String)
  set : String → String → Nat → Except Thrown Unit

/-- JS truthiness of `cachedData` (`null`/`undefined` and `""` are falsy). -/
def strTruthy : Option String → Bool
  | some s => s != ""
  | none => false

/-- Common body of `Aura.getAsset` and `Aura.getAssetProof` (`src/sdk.ts`
lines 83-105 and 195-216), which differ only in the key prefix and method
name.  Parameters: the optional cache provider, the configured `cacheTTL`
(milliseconds), the outcome the dispatcher would produce (`makeRequest` never
rejects, so a plain `Result`), and `JSON.parse` / `JSON.stringify` as opaque
(de)serialization functions.  Returns the ordered event trace and the overall
outcome; an `Except.error` outcome means the method's promise rejects.  Note
the source has no `try`/`catch` around the cache calls, so a rejecting `get`
or `set` rejects the whole method. -/
def cachedFetch (keyPrefix method : String)
    (cp : Option CacheBackend) (cacheTTL : Nat)
    (dispatchResult : Result Json JsError)
    (parse : String → Json) (stringify : Json → String)
    (assetId : String) :
    List Event × Except Thrown (Result Json JsError) :=
  let cacheKey := keyPrefix ++ ":" ++ assetId
  match cp with
  | some c =>
    match c.get cacheKey with
    | .error t => ([.cacheGet cacheKey], .error t)
    | .ok cachedData =>
      if strTruthy cachedData then
        ([.cacheGet cacheKey],
         .ok (.success (parse (cachedData.getD ""))))
      else
        match dispatchResult with
        | .success d =>
          let serialized := stringify d
          let ttlSec := cacheTTL / 1000
          match c.set cacheKey serialized ttlSec with
          | .error t =>
            ([.cacheGet cacheKey, .dispatchCall method,
              .cacheSet cacheKey serialized ttlSec], .error t)
          | .ok _ =>
            ([.cacheGet cacheKey, .dispatchCall method,
              .cacheSet cacheKey serialized ttlSec], .ok (.success d))
        | .failure e =>
          ([.cacheGet cacheKey, .dispatchCall method], .ok (.failure e))
  | none =>
    ([.dispatchCall method], .ok dispatchResult)

/-- `Aura.getAsset` (`src/sdk.ts` lines 83-105): cached fetch with key
`asset:<id>` and method `getAsset`. -/
def Aura.getAsset (cp : Option CacheBackend) (cacheTTL : Nat)
    (dispatchResult : Result Json JsError)
    (parse : String → Json) (stringify : Json → String) (assetId : String) :
    List Event × Except Thrown (Result Json JsError) :=
  cachedFetch "asset" "getAsset" cp cacheTTL dispatchResult parse stringify assetId

/-- `Aura.getAssetProof` (`src/sdk.ts` lines 195-216): cached fetch with key
`proof:<id>` and method `getAssetProof`. -/
def Aura.getAssetProof (cp : Option CacheBackend) (cacheTTL : Nat)
    (dispatchResult : Result Json JsError)
    (parse : String → Json) (stringify : Json → String) (assetId : String) :
    List Event × Except Thrown (Result Json JsError) :=
  cachedFetch "proof" "getAssetProof" cp cacheTTL dispatchResult parse stringify assetId

/-- The JS `a || b` fallback on optional numeric fields: `a` is used unless it
is absent (`undefined`) or `0` (both falsy), in which case `b` is used.  This
is exactly `params.limit || response.data.result.limit` in the paginators. -/
def jsOrNum : Option Int → Option Int → Option Int
  | some x, y => if x = 0 then y else some x
  | none, y => y

/-- The JS `params.page || 1` default for the starting page. -/
def jsOrPage : Option Nat → Nat
  | some n => if n = 0 then 1 else n
  | none => 1

/-- The total-based stop test `currentPage * limit >= total` under JS number
semantics: if either operand is absent (`undefined`), the arithmetic produces
`NaN` and the comparison is `false`. -/
def totalStop (currentPage : Nat) (limit total : Option Int) : Bool :=
  match limit, total with
  | some l, some t => decide (t ≤ (currentPage : Int) * l)
  | _, _ => false

/-- The short-page stop test `items.length < limit` under JS number
semantics: comparison against an absent (`undefined`) limit is `false`. -/
def shortStop (itemsLen : Nat) (limit : Option Int) : Bool :=
  match limit with
  | some l => decide ((itemsLen : Int) < l)
  | none => false

/-- The `result` payload of `GetAssetsByOwnerResponse` (`src/types/types.ts`):
`{ total, limit, items, cursor }`.  The numeric fields are `Option Int`
because the SDK never validates the body, so they may be absent at runtime;
items are opaque assets (the paginator never inspects them). -/
structure OwnerResult where
  total : Option Int
  limit : Option Int
  items : List Json
  cursor : Option String

/-- `GetAssetsByOwnerResponse` from `src/types/types.ts`. -/
structure GetAssetsByOwnerResponse where
  jsonrpc : String
  result : OwnerResult
  id : String

/-- The `result` payload of `GetSignaturesResponse` (`src/types/types.ts`):
`{ total, limit, before?, after?, items }` with `items : [string, string][]`. -/
structure SigResult where
  total : Option Int
  limit : Option Int
  before : Option String
  after : Option String
  items : List (String × String)

/-- `GetSignaturesResponse` from `src/types/types.ts`. -/
structure GetSignaturesResponse where
  jsonrpc : String
  result : SigResult
  id : String

/-- The `result` payload of `GetTokenAccountsResponse` (`src/types/types.ts`):
`{ total, limit, before, after, cursor, token_accounts }`. -/
structure TokenResult where
  total : Option Int
  limit : Option Int
  before : Option String
  after : Option String
  cursor : Option String
  token_accounts : List Json

/-- `GetTokenAccountsResponse` from `src/types/types.ts`. -/
structure GetTokenAccountsResponse where
  jsonrpc : String
  result : TokenResult
  id : String

/-- The loop body of `Aura.paginateAssetsByOwner` (`src/sdk.ts` lines
138-156), run with explicit fuel (number of loop iterations the consumer is
willing to drive; the generator itself has no bound).  `fetch` abstracts
`this.getAssetsByOwner({ ...params, page })` as the result each page's
dispatch would produce.  The returned list pairs each page number actually
requested with the `Result` yielded for it; a `[]` tail means the
generator returned (`break`), while exhausting the fuel truncates the run. -/
def Aura.paginateAssetsByOwner
    (fetch : Nat → Result GetAssetsByOwnerResponse JsError)
    (paramsLimit : Option Int) :
    Nat → Nat → List (Nat × Result GetAssetsByOwnerResponse JsError)
  | 0, _ => []
  | fuel + 1, currentPage =>
    (currentPage, fetch currentPage) ::
      match fetch currentPage with
      | .failure _ => []
      | .success data =>
        let limit := jsOrNum paramsLimit data.result.limit
        if totalStop currentPage limit data.result.total then []
        else Aura.paginateAssetsByOwner fetch paramsLimit fuel (currentPage + 1)

/-- The loop body of `Aura.paginateSignaturesForAsset` (`src/sdk.ts` lines
343-361): same shape as the owner paginator but with the short-page stop
`response.data.result.items.length < limit` and no use of `total`. -/
def Aura.paginateSignaturesForAsset
    (fetch : Nat → Result GetSignaturesResponse JsError)
    (paramsLimit : Option Int) :
    Nat → Nat → List (Nat × Result GetSignaturesResponse JsError)
  | 0, _ => []
  | fuel + 1, currentPage =>
    (currentPage, fetch currentPage) ::
      match fetch currentPage with
      | .failure _ => []
      | .success data =>
        let limit := jsOrNum paramsLimit data.result.limit
        if shortStop data.result.items.length limit then []
        else Aura.paginateSignaturesForAsset fetch paramsLimit fuel (currentPage + 1)

/-- The loop body of `Aura.paginateTokenAccounts` (`src/sdk.ts` lines
376-397): short-page stop on `response.data.result.token_accounts.length`. -/
def Aura.paginateTokenAccountsLoop
    (fetch : Nat → Result GetTokenAccountsResponse JsError)
    (paramsLimit : Option Int) :
    Nat → Nat → List (Nat × Result GetTokenAccountsResponse JsError)
  | 0, _ => []
  | fuel + 1, currentPage =>
    (currentPage, fetch currentPage) ::
      match fetch currentPage with
      | .failure _ => []
      | .success data =>
        let limit := jsOrNum paramsLimit data.result.limit
        if shortStop data.result.token_accounts.length limit then []
        else Aura.paginateTokenAccountsLoop fetch paramsLimit fuel (currentPage + 1)

/-- `Aura.paginateTokenAccounts` starts at `params.page || 1` (`src/sdk.ts`
line 377) and then runs the loop. -/
def Aura.paginateTokenAccounts
    (fetch : Nat → Result GetTokenAccountsResponse JsError)
    (paramsLimit : Option Int) (paramsPage : Option Nat) (fuel : Nat) :
    List (Nat × Result GetTokenAccountsResponse JsError) :=
  Aura.paginateTokenAccountsLoop fetch paramsLimit fuel (jsOrPage paramsPage)

/-- One stored entry of the default in-memory cache (`MemoryCache`):
`{ value: any; expires: number }`, where `expires = 0` is the sentinel written
for "no expiry" (`ttl ? Date.now() + ttl * 1000 : 0`). -/
structure MemEntry (α : Type) where
  value : α
  expires : Nat

/-- The state of a `MemoryCache`: a `Map<string, { value, expires }>`,
modelled extensionally as a partial function from keys to entries. -/
def MemoryCacheState (α : Type) : Type := String → Option (MemEntry α)

/-- The empty cache (`new Map()`). -/
def MemoryCacheState.empty (α : Type) : MemoryCacheState α := fun _ => none

/-- `MemoryCache.set(key, value, ttl?)`: stores
`{ value, expires: ttl ? Date.now() + ttl * 1000 : 0 }`.  `Date.now()` is the
explicit `now` argument (milliseconds); a `ttl` of `undefined` or `0` is falsy
and stores the no-expiry sentinel. -/
def MemoryCache.set (m : MemoryCacheState α) (now : Nat) (key : String)
    (value : α) (ttl : Option Nat) : MemoryCacheState α :=
  fun k =>
    if k = key then
      some { value := value
             expires :=
               match ttl with
               | some n => if n = 0 then 0 else now + n * 1000
               | none => 0 }
    else m k

/-- `MemoryCache.delete(key)`. -/
def MemoryCache.erase (m : MemoryCacheState α) (key : String) :
    MemoryCacheState α :=
  fun k => if k = key then none else m k

/-- `MemoryCache.get(key)`: returns `null` for a missing entry; for a present
entry with a truthy `expires` strictly in the past (`item.expires &&
item.expires < Date.now()`), deletes it and returns `null`; otherwise returns
the stored value.  Returns the updated cache state together with the result. -/
def MemoryCache.get (m : MemoryCacheState α) (now : Nat) (key : String) :
    MemoryCacheState α × Option α :=
  match m key with
  | none => (m, none)
  | some item =>
    if item.expires ≠ 0 ∧ item.expires < now then
      (MemoryCache.erase m key, none)
    else
      (m, some item.value)

/-- C1, counterexample.  The claim states that `isAuraErrorResponse` demands
an *integer* `error.code`, but the source only tests
`typeof obj.error.code === 'number'`: on a body whose `error.code` is the
non-integer number 3/2 the classifier returns `true` while the claimed
conjunction of conditions (with "integer") is violated. -/
theorem specErrorShape_counterexample :
    AuraError.isAuraErrorResponse nonIntCodeBody = true ∧
    specErrorShape nonIntCodeBody = false := by
  constructor <;> decide

/-- C1, amended.  `isAuraErrorResponse body` returns `true` iff `body` is a
mapping, its `jsonrpc` field equals `"2.0"`, it has an `error` field that is a
mapping, `error.code` is a JSON *number* (not necessarily an integer), and
`error.message` is a string; if any single one of these conditions fails it
returns `false`. -/
theorem isAuraErrorResponse_eq_amendedShape (o : Json) :
    AuraError.isAuraErrorResponse o = amendedErrorShape o := by
  cases o with
  | obj fields =>
    unfold AuraError.isAuraErrorResponse amendedErrorShape
    rcases h : (Json.obj fields).getField "error" with _ | v
    · simp [h, optTruthy, isObjField, optField]
    · cases v <;>
        simp [h, optTruthy, isObjField, optField, Json.getField, Json.truthy,
              Json.isObj, isNumField]
  | null => rfl
  | bool b => cases b <;> rfl
  | num q =>
    simp [AuraError.isAuraErrorResponse, amendedErrorShape, Json.getField,
          isStr20, Json.truthy, Json.isObj]
  | str s =>
    simp [AuraError.isAuraErrorResponse, amendedErrorShape, Json.getField,
          isStr20, Json.truthy, Json.isObj]
  | arr xs =>
    simp [AuraError.isAuraErrorResponse, amendedErrorShape, Json.getField,
          isStr20, Json.truthy, Json.isObj]

/-- C10.  For every transport outcome, `makeRequest` resolves to a `Result`
and never rejects: whenever its `try` block throws, the thrown value is
converted into a failure `Result`; a thrown `Error` instance is kept, and a
thrown non-`Error` value is wrapped as a generic error with message
`'Unknown error occurred'`. -/
theorem makeRequest_never_rejects (transport : Except Thrown HttpResp) :
    (∃ r, Aura.makeRequest transport = .ok r) ∧
    (∀ t, Aura.makeRequestBody transport = .error t →
      Aura.makeRequest transport = .ok (.failure (wrapCaught t))) ∧
    (∀ m, wrapCaught (.errorInstance m) = .plain m) ∧
    (∀ v, wrapCaught (.nonError v) = .plain "Unknown error occurred") := by
  refine ⟨?_, ?_, fun m => rfl, fun v => rfl⟩
  · unfold Aura.makeRequest
    cases Aura.makeRequestBody transport with
    | ok r => exact ⟨r, rfl⟩
    | error t => exact ⟨.failure (wrapCaught t), rfl⟩
  · intro t ht
    unfold Aura.makeRequest
    rw [ht]

/-- C10, witness: a transport that throws the non-`Error` JSON value `null`
yields a resolved failure `Result` carrying the generic wrapped error. -/
theorem makeRequest_never_rejects_witness :
    Aura.makeRequest (.error (.nonError Json.null)) =
      .ok (.failure (.plain "Unknown error occurred")) := by
  have h := (makeRequest_never_rejects (.error (.nonError Json.null))).2.1
    (.nonError Json.null) rfl
  simpa [wrapCaught] using h

/-- A cache backend whose reads miss and whose writes reject (e.g. the store
went down between the read and the write). -/
def failingSetBackend : CacheBackend :=
  { get := fun _ => .ok none
    set := fun _ _ _ => .error (.errorInstance "cache backend down") }

/-- A cache backend that always misses and accepts writes. -/
def missBackend : CacheBackend :=
  { get := fun _ => .ok none
    set := fun _ _ _ => .ok () }

/-- C3.  The claim says a failing cache write must not fail the overall
operation, but `getAsset` has no `try`/`catch` around
`await this.cacheProvider.set(...)`: with a configured backend whose `set`
rejects, a successful dispatch still ends in the whole method rejecting with
the cache error instead of returning the successful `Result`. -/
theorem getAsset_rejects_when_cache_set_rejects :
    Aura.getAsset (some failingSetBackend) 60000 (.success (Json.str "payload"))
        Json.str (fun _ => "serialized") "abc" =
      ([.cacheGet ("asset" ++ ":" ++ "abc"), .dispatchCall "getAsset",
        .cacheSet ("asset" ++ ":" ++ "abc") "serialized" 60],
       .error (.errorInstance "cache backend down")) := by
  rfl

/-- Helper: a failed dispatch never reaches the cache write, whatever the
cache configuration and whatever the read returned. -/
theorem cachedFetch_failure_no_set (pre m : String) (cp : Option CacheBackend)
    (ttl : Nat) (e : JsError) (parse : String → Json)
    (stringify : Json → String) (idStr : String) :
    ((cachedFetch pre m cp ttl (.failure e) parse stringify idStr).1.filter
        Event.isSet).length = 0 := by
  match cp with
  | none => rfl
  | some c =>
    cases hg : c.get (pre ++ ":" ++ idStr) with
    | error t => simp [cachedFetch, hg, Event.isSet]
    | ok cached =>
      cases hb : strTruthy cached <;>
        simp [cachedFetch, hg, hb, Event.isSet]

/-- Helper: a cache miss followed by a successful dispatch performs exactly
one cache write (whether or not that write itself succeeds). -/
theorem cachedFetch_miss_success_one_set (pre m : String) (c : CacheBackend)
    (ttl : Nat) (d : Json) (parse : String → Json) (stringify : Json → String)
    (idStr : String) (cached : Option String)
    (hg : c.get (pre ++ ":" ++ idStr) = .ok cached)
    (hm : strTruthy cached = false) :
    ((cachedFetch pre m (some c) ttl (.success d) parse stringify idStr).1.filter
        Event.isSet).length = 1 := by
  cases hs : c.set (pre ++ ":" ++ idStr) (stringify d) (ttl / 1000) <;>
    simp [cachedFetch, hg, hm, hs, Event.isSet]

/-- C4.  For both cached single-entity fetches: a failed dispatch never
triggers a cache write, and a cache miss followed by a successful dispatch
triggers exactly one `set` call. -/
theorem cachedFetch_set_call_discipline (cp : Option CacheBackend)
    (c : CacheBackend) (ttl : Nat) (e : JsError) (d : Json)
    (parse : String → Json) (stringify : Json → String) (idStr : String)
    (cached : Option String) :
    (((Aura.getAsset cp ttl (.failure e) parse stringify idStr).1.filter
        Event.isSet).length = 0 ∧
      ((Aura.getAssetProof cp ttl (.failure e) parse stringify idStr).1.filter
        Event.isSet).length = 0) ∧
    (c.get ("asset" ++ ":" ++ idStr) = .ok cached → strTruthy cached = false →
      ((Aura.getAsset (some c) ttl (.success d) parse stringify idStr).1.filter
        Event.isSet).length = 1) ∧
    (c.get ("proof" ++ ":" ++ idStr) = .ok cached → strTruthy cached = false →
      ((Aura.getAssetProof (some c) ttl (.success d) parse stringify idStr).1.filter
        Event.isSet).length = 1) := by
  refine ⟨⟨?_, ?_⟩, ?_, ?_⟩
  · exact cachedFetch_failure_no_set "asset" "getAsset" cp ttl e parse stringify idStr
  · exact cachedFetch_failure_no_set "proof" "getAssetProof" cp ttl e parse stringify idStr
  · intro hg hm
    exact cachedFetch_miss_success_one_set "asset" "getAsset" c ttl d parse stringify idStr cached hg hm
  · intro hg hm
    exact cachedFetch_miss_success_one_set "proof" "getAssetProof" c ttl d parse stringify idStr cached hg hm

/-- C4, witness: with an always-missing backend, a failed dispatch performs
zero cache writes and a successful dispatch performs exactly one. -/
theorem cachedFetch_set_call_discipline_witness :
    ((Aura.getAsset (some missBackend) 60000 (.failure (.plain "down"))
        Json.str (fun _ => "s") "a").1.filter Event.isSet).length = 0 ∧
    ((Aura.getAsset (some missBackend) 60000 (.success Json.null)
        Json.str (fun _ => "s") "a").1.filter Event.isSet).length = 1 := by
  have h := cachedFetch_set_call_discipline (some missBackend) missBackend
    60000 (.plain "down") Json.null Json.str (fun _ => "s") "a" none
  exact ⟨h.1.1, h.2.1 rfl rfl⟩

/-- Helper: a truthy cache hit returns the deserialized value immediately;
the trace holds only the cache read. -/
theorem cachedFetch_hit_eq (pre m : String) (c : CacheBackend) (ttl : Nat)
    (dres : Result Json JsError) (parse : String → Json)
    (stringify : Json → String) (idStr s : String)
    (hg : c.get (pre ++ ":" ++ idStr) = .ok (some s)) (hs : s ≠ "") :
    cachedFetch pre m (some c) ttl dres parse stringify idStr =
      ([.cacheGet (pre ++ ":" ++ idStr)], .ok (.success (parse s))) := by
  simp [cachedFetch, hg, strTruthy, hs]

/-- C8.  For both cached single-entity fetches, a cache hit (the backend
returns a stored, necessarily non-empty, serialized value) makes the
operation return success carrying the deserialized cached value, and the
dispatcher is never invoked: the event trace holds only the cache read. -/
theorem cached_hit_bypasses_dispatcher (c : CacheBackend) (ttl : Nat)
    (dres : Result Json JsError) (parse : String → Json)
    (stringify : Json → String) (idStr s : String) :
    (c.get ("asset" ++ ":" ++ idStr) = .ok (some s) → s ≠ "" →
      Aura.getAsset (some c) ttl dres parse stringify idStr =
        ([.cacheGet ("asset" ++ ":" ++ idStr)], .ok (.success (parse s))) ∧
      ((Aura.getAsset (some c) ttl dres parse stringify idStr).1.filter
        Event.isDispatch).length = 0) ∧
    (c.get ("proof" ++ ":" ++ idStr) = .ok (some s) → s ≠ "" →
      Aura.getAssetProof (some c) ttl dres parse stringify idStr =
        ([.cacheGet ("proof" ++ ":" ++ idStr)], .ok (.success (parse s))) ∧
      ((Aura.getAssetProof (some c) ttl dres parse stringify idStr).1.filter
        Event.isDispatch).length = 0) := by
  constructor
  · intro hg hs
    have h := cachedFetch_hit_eq "asset" "getAsset" c ttl dres parse stringify idStr s hg hs
    refine ⟨h, ?_⟩
    show ((cachedFetch "asset" "getAsset" (some c) ttl dres parse stringify idStr).1.filter
      Event.isDispatch).length = 0
    rw [h]
    rfl
  · intro hg hs
    have h := cachedFetch_hit_eq "proof" "getAssetProof" c ttl dres parse stringify idStr s hg hs
    refine ⟨h, ?_⟩
    show ((cachedFetch "proof" "getAssetProof" (some c) ttl dres parse stringify idStr).1.filter
      Event.isDispatch).length = 0
    rw [h]
    rfl

/-- A cache backend holding the serialized value `"cached!"` for every key. -/
def hitBackend : CacheBackend :=
  { get := fun _ => .ok (some "cached!")
    set := fun _ _ _ => .ok () }

/-- C8, witness: with a backend that returns the stored value `"cached!"`,
`getAsset` returns the deserialized cached value and never dispatches. -/
theorem cached_hit_bypasses_dispatcher_witness :
    Aura.getAsset (some hitBackend) 60000 (.failure (.plain "unused"))
        Json.str (fun _ => "s") "a" =
      ([.cacheGet ("asset" ++ ":" ++ "a")],
       .ok (.success (Json.str "cached!"))) ∧
    ((Aura.getAsset (some hitBackend) 60000 (.failure (.plain "unused"))
        Json.str (fun _ => "s") "a").1.filter Event.isDispatch).length = 0 := by
  have h := (cached_hit_bypasses_dispatcher hitBackend 60000
    (.failure (.plain "unused")) Json.str (fun _ => "s") "a" "cached!").1
    rfl (by decide)
  exact h

/-- The continuation condition of the owner paginator's loop: after yielding
page `page`, the loop requests `page + 1` iff the dispatch succeeded and the
total-based stop test failed. -/
def ownerCont (fetch : Nat → Result GetAssetsByOwnerResponse JsError)
    (paramsLimit : Option Int) (page : Nat) : Bool :=
  match fetch page with
  | .failure _ => false
  | .success data =>
    !(totalStop page (jsOrNum paramsLimit data.result.limit) data.result.total)

/-- One unfolding of the owner paginator's loop, phrased with the
continuation condition. -/
theorem paginateOwner_step (fetch : Nat → Result GetAssetsByOwnerResponse JsError)
    (pl : Option Int) (fuel page : Nat) :
    Aura.paginateAssetsByOwner fetch pl (fuel + 1) page =
      (page, fetch page) ::
        (if ownerCont fetch pl page then
          Aura.paginateAssetsByOwner fetch pl fuel (page + 1)
        else []) := by
  cases h : fetch page with
  | failure e => simp [Aura.paginateAssetsByOwner, ownerCont, h]
  | success d =>
    by_cases hs : totalStop page (jsOrNum pl d.result.limit) d.result.total <;>
      simp [Aura.paginateAssetsByOwner, ownerCont, h, hs]

/-- If the continuation condition holds at the first `k - 1` pages of a
window and fails at the `k`-th, a run with enough fuel requests and yields
exactly those `k` pages. -/
theorem paginateOwner_interval (fetch : Nat → Result GetAssetsByOwnerResponse JsError)
    (pl : Option Int) :
    ∀ (k page fuel : Nat), 1 ≤ k → k ≤ fuel →
      (∀ i, i + 1 < k → ownerCont fetch pl (page + i) = true) →
      ownerCont fetch pl (page + k - 1) = false →
      Aura.paginateAssetsByOwner fetch pl fuel page =
        (List.range' page k).map (fun p => (p, fetch p)) := by
  intro k
  induction k with
  | zero => intro page fuel h1; omega
  | succ k ih =>
    intro page fuel _ hf hcont hstop
    obtain ⟨f, rfl⟩ : ∃ f, fuel = f + 1 := ⟨fuel - 1, by omega⟩
    rw [paginateOwner_step]
    rcases Nat.eq_zero_or_pos k with hk0 | hkpos
    · subst hk0
      have hstop' : ownerCont fetch pl page = false := by
        simpa using hstop
      simp [hstop']
    · have hc : ownerCont fetch pl page = true := by
        have := hcont 0 (by omega)
        simpa using this
      rw [hc]
      have hrec := ih (page + 1) f hkpos (by omega) ?_ ?_
      · rw [if_pos rfl, hrec, List.range'_succ, List.map_cons]
      · intro i hi
        have e : page + 1 + i = page + (i + 1) := by omega
        rw [e]
        exact hcont (i + 1) (by omega)
      · have e : page + 1 + k - 1 = page + (k + 1) - 1 := by omega
        rw [e]
        exact hstop

/-- C5.  Total-based pagination: when every dispatch up to page `k` succeeds,
the owner paginator yields exactly pages `1..k`, where `k` is the first page
with `currentPage * effectiveLimit >= total` and the effective limit is the
caller-supplied limit when truthy, otherwise the limit echoed by that page's
response; no request for any page beyond `k` is ever issued. -/
theorem paginateAssetsByOwner_total_based_stop
    (fetch : Nat → Result GetAssetsByOwnerResponse JsError)
    (paramsLimit : Option Int) (resp : Nat → GetAssetsByOwnerResponse)
    (k fuel : Nat) (h1 : 1 ≤ k) (hf : k ≤ fuel)
    (hresp : ∀ p, 1 ≤ p → p ≤ k → fetch p = .success (resp p))
    (hgo : ∀ p, 1 ≤ p → p < k →
      totalStop p (jsOrNum paramsLimit (resp p).result.limit)
        (resp p).result.total = false)
    (hstop : totalStop k (jsOrNum paramsLimit (resp k).result.limit)
        (resp k).result.total = true) :
    Aura.paginateAssetsByOwner fetch paramsLimit fuel 1 =
      (List.range' 1 k).map (fun p => (p, fetch p)) ∧
    ∀ q r, (q, r) ∈ Aura.paginateAssetsByOwner fetch paramsLimit fuel 1 →
      q ≤ k := by
  have hmain : Aura.paginateAssetsByOwner fetch paramsLimit fuel 1 =
      (List.range' 1 k).map (fun p => (p, fetch p)) := by
    apply paginateOwner_interval fetch paramsLimit k 1 fuel h1 hf
    · intro i hi
      have hp1 : 1 ≤ 1 + i := by omega
      have hp2 : 1 + i < k := by omega
      unfold ownerCont
      rw [hresp (1 + i) hp1 (by omega)]
      simp [hgo (1 + i) hp1 hp2]
    · have e : 1 + k - 1 = k := by omega
      rw [e]
      unfold ownerCont
      rw [hresp k h1 (by omega)]
      simp [hstop]
  refine ⟨hmain, ?_⟩
  intro q r hq
  rw [hmain] at hq
  rcases List.mem_map.mp hq with ⟨p, hp, hpe⟩
  have := List.mem_range'_1.mp hp
  have : p = q := congrArg Prod.fst hpe
  omega

/-- The constant response used in the total-based witness:
`total = 250`, echoed `limit = 100`. -/
def ownerResp250 : GetAssetsByOwnerResponse :=
  { jsonrpc := "2.0"
    result := { total := some 250, limit := some 100, items := [], cursor := none }
    id := "1" }

/-- A dispatcher that always succeeds with `ownerResp250`. -/
def ownerFetch250 : Nat → Result GetAssetsByOwnerResponse JsError :=
  fun _ => .success ownerResp250

/-- C5, witness: with `total = 250` and caller limit `100`, the run yields
pages 1, 2 and 3 and stops; no page-4 request is issued. -/
theorem paginateAssetsByOwner_total_based_stop_witness :
    Aura.paginateAssetsByOwner ownerFetch250 (some 100) 10 1 =
      [(1, .success ownerResp250), (2, .success ownerResp250),
       (3, .success ownerResp250)] := by
  have h := paginateAssetsByOwner_total_based_stop ownerFetch250 (some 100)
    (fun _ => ownerResp250) 3 10 (by omega) (by omega)
    (fun p _ _ => rfl)
    (fun p h1 h2 => by
      interval_cases p <;> decide)
    (by decide)
  rw [h.1]
  rfl

/-- C7.  If the dispatch for page `n` fails while all earlier pages succeed
without hitting the stop condition, the sequence yields the successes for
pages `1..n-1` in order, then the page-`n` failure, and terminates: no page
beyond `n` is ever requested. -/
theorem paginate_failure_terminates_sequence
    (fetch : Nat → Result GetAssetsByOwnerResponse JsError)
    (paramsLimit : Option Int) (resp : Nat → GetAssetsByOwnerResponse)
    (e : JsError) (n fuel : Nat) (h1 : 1 ≤ n) (hf : n ≤ fuel)
    (hresp : ∀ p, 1 ≤ p → p < n → fetch p = .success (resp p))
    (hgo : ∀ p, 1 ≤ p → p < n →
      totalStop p (jsOrNum paramsLimit (resp p).result.limit)
        (resp p).result.total = false)
    (hfail : fetch n = .failure e) :
    Aura.paginateAssetsByOwner fetch paramsLimit fuel 1 =
      ((List.range' 1 (n - 1)).map (fun p => (p, fetch p))) ++
        [(n, .failure e)] ∧
    ∀ q r, (q, r) ∈ Aura.paginateAssetsByOwner fetch paramsLimit fuel 1 →
      q ≤ n := by
  have hmain : Aura.paginateAssetsByOwner fetch paramsLimit fuel 1 =
      (List.range' 1 n).map (fun p => (p, fetch p)) := by
    apply paginateOwner_interval fetch paramsLimit n 1 fuel h1 hf
    · intro i hi
      have hp1 : 1 ≤ 1 + i := by omega
      have hp2 : 1 + i < n := by omega
      unfold ownerCont
      rw [hresp (1 + i) hp1 hp2]
      simp [hgo (1 + i) hp1 hp2]
    · have e' : 1 + n - 1 = n := by omega
      rw [e']
      unfold ownerCont
      rw [hfail]
  constructor
  · rw [hmain]
    obtain ⟨m, rfl⟩ : ∃ m, n = m + 1 := ⟨n - 1, by omega⟩
    rw [List.range'_1_concat, List.map_append]
    have e2 : 1 + m = m + 1 := by omega
    rw [e2]
    simp [hfail]
  · intro q r hq
    rw [hmain] at hq
    rcases List.mem_map.mp hq with ⟨p, hp, hpe⟩
    have := List.mem_range'_1.mp hp
    have : p = q := congrArg Prod.fst hpe
    omega

/-- The response used on page 1 of the failure-propagation witness: a large
total so the stop condition does not fire. -/
def ownerRespBig : GetAssetsByOwnerResponse :=
  { jsonrpc := "2.0"
    result := { total := some 1000, limit := some 100, items := [], cursor := none }
    id := "1" }

/-- A dispatcher that succeeds on page 1 and fails from page 2 on. -/
def ownerFetchFailAt2 : Nat → Result GetAssetsByOwnerResponse JsError :=
  fun p => if p = 1 then .success ownerRespBig else .failure (.plain "boom")

/-- C7, witness: page 2 fails, so the run is the page-1 success followed by
the page-2 failure; no page-3 request is issued. -/
theorem paginate_failure_terminates_sequence_witness :
    Aura.paginateAssetsByOwner ownerFetchFailAt2 (some 100) 10 1 =
      [(1, .success ownerRespBig), (2, .failure (.plain "boom"))] := by
  have h := paginate_failure_terminates_sequence ownerFetchFailAt2 (some 100)
    (fun _ => ownerRespBig) (.plain "boom") 2 10 (by omega) (by omega)
    (fun p hp1 hp2 => by
      interval_cases p
      rfl)
    (fun p hp1 hp2 => by
      interval_cases p
      decide)
    rfl
  rw [h.1]
  rfl

/-- C6.  Short-page pagination (`paginateSignaturesForAsset`,
`paginateTokenAccounts`): if the dispatch at page `p` succeeds and returns
strictly fewer items than the effective limit, the sequence stops after
yielding that page, whatever value any `total` field of the response holds
(the response records, including `total`, are universally quantified and the
stop test reads only the item count and the limit). -/
theorem paginate_short_page_terminal
    (fetchS : Nat → Result GetSignaturesResponse JsError)
    (fetchT : Nat → Result GetTokenAccountsResponse JsError)
    (pl : Option Int) (p fuel : Nat) (dS : GetSignaturesResponse)
    (dT : GetTokenAccountsResponse) (l : Int) (hfuel : 1 ≤ fuel) :
    (fetchS p = .success dS → jsOrNum pl dS.result.limit = some l →
      (dS.result.items.length : Int) < l →
      Aura.paginateSignaturesForAsset fetchS pl fuel p = [(p, fetchS p)]) ∧
    (fetchT p = .success dT → jsOrNum pl dT.result.limit = some l →
      (dT.result.token_accounts.length : Int) < l →
      Aura.paginateTokenAccountsLoop fetchT pl fuel p = [(p, fetchT p)]) := by
  obtain ⟨f, rfl⟩ : ∃ f, fuel = f + 1 := ⟨fuel - 1, by omega⟩
  constructor
  · intro hS hl hlen
    rw [Aura.paginateSignaturesForAsset, hS]
    simp [hS, hl, shortStop, hlen]
  · intro hT hl hlen
    rw [Aura.paginateTokenAccountsLoop, hT]
    simp [hT, hl, shortStop, hlen]

/-- Signatures response with 37 items under an echoed limit of 100. -/
def sigResp37 : GetSignaturesResponse :=
  { jsonrpc := "2.0"
    result := { total := some 999, limit := some 100, before := none,
                after := none, items := List.replicate 37 ("sig", "type") }
    id := "1" }

/-- Token-accounts response with 37 accounts under an echoed limit of 100. -/
def tokenResp37 : GetTokenAccountsResponse :=
  { jsonrpc := "2.0"
    result := { total := some 999, limit := some 100, before := none,
                after := none, cursor := none,
                token_accounts := List.replicate 37 Json.null }
    id := "1" }

/-- C6, witness: a page of 37 items under an effective limit of 100 is
terminal for both short-page paginators. -/
theorem paginate_short_page_terminal_witness :
    Aura.paginateSignaturesForAsset (fun _ => .success sigResp37)
        none 5 1 = [(1, .success sigResp37)] ∧
    Aura.paginateTokenAccountsLoop (fun _ => .success tokenResp37)
        none 5 1 = [(1, .success tokenResp37)] := by
  have h := paginate_short_page_terminal (fun _ => .success sigResp37)
    (fun _ => .success tokenResp37) none 1 5 sigResp37 tokenResp37 100
    (by omega)
  exact ⟨h.1 rfl (by decide) (by decide), h.2 rfl (by decide) (by decide)⟩

/-- The response every page of the zero-limit run echoes: `limit = 0`,
`total = 5`, so `currentPage * 0 >= 5` never holds. -/
def ownerRespZero : GetAssetsByOwnerResponse :=
  { jsonrpc := "2.0"
    result := { total := some 5, limit := some 0, items := [], cursor := none }
    id := "1" }

/-- A dispatcher that always succeeds with the zero-limit response. -/
def ownerFetchZero : Nat → Result GetAssetsByOwnerResponse JsError :=
  fun _ => .success ownerRespZero

/-- A token-accounts response that echoes no limit at all (`undefined` at
runtime): `items.length < undefined` is a `NaN` comparison and never holds. -/
def tokenRespNoLimit : GetTokenAccountsResponse :=
  { jsonrpc := "2.0"
    result := { total := some 5, limit := none, before := none, after := none,
                cursor := none, token_accounts := [] }
    id := "1" }

/-- A dispatcher that always succeeds with the no-limit response. -/
def tokenFetchNoLimit : Nat → Result GetTokenAccountsResponse JsError :=
  fun _ => .success tokenRespNoLimit

/-- C2.  The claim requires a run with a zero or undefined effective limit to
terminate after at most one page, but neither paginator has the guard: with a
caller limit of `0` echoed as `0` by every response (owner paginator), or
with no caller limit and no echoed limit (token-accounts paginator), every
iteration's stop test is false, so the loop requests one page per unit of
fuel for every fuel — the generator never breaks and iterates forever. -/
theorem paginate_zero_limit_loops_forever (fuel page : Nat) :
    (Aura.paginateAssetsByOwner ownerFetchZero (some 0) fuel page).length =
      fuel ∧
    (Aura.paginateTokenAccountsLoop tokenFetchNoLimit none fuel page).length =
      fuel := by
  induction fuel generalizing page with
  | zero => exact ⟨rfl, rfl⟩
  | succ f ih =>
    constructor
    · rw [Aura.paginateAssetsByOwner]
      have hc : totalStop page (jsOrNum (some 0) (some 0)) (some 5) = false := by
        simp [jsOrNum, totalStop]
      simp only [ownerFetchZero, ownerRespZero]
      simp [hc, (ih (page + 1)).1]
    · rw [Aura.paginateTokenAccountsLoop]
      simp only [tokenFetchNoLimit, tokenRespNoLimit]
      simp [jsOrNum, shortStop, (ih (page + 1)).2]

/-- C9.  `MemoryCache` TTL semantics: after `set(k, v, ttl)` with a positive
`ttl` at time `t0`, `get(k)` returns `v` while fewer than `ttl` seconds have
elapsed, and once more than `ttl` seconds have elapsed it returns absence and
purges the entry; `set(k, v)` without a `ttl` stores an entry that never
expires.  Times are milliseconds and `ttl` is seconds, matching
`Date.now() + ttl * 1000` in the source. -/
theorem memoryCache_ttl_semantics {α : Type} (m : MemoryCacheState α)
    (k : String) (v : α) (ttl t0 t : Nat) :
    (0 < ttl → t < t0 + ttl * 1000 →
      MemoryCache.get (MemoryCache.set m t0 k v (some ttl)) t k =
        (MemoryCache.set m t0 k v (some ttl), some v)) ∧
    (0 < ttl → t0 + ttl * 1000 < t →
      (MemoryCache.get (MemoryCache.set m t0 k v (some ttl)) t k).2 = none ∧
      (MemoryCache.get (MemoryCache.set m t0 k v (some ttl)) t k).1 k = none) ∧
    (MemoryCache.get (MemoryCache.set m t0 k v none) t k =
      (MemoryCache.set m t0 k v none, some v)) := by
  refine ⟨?_, ?_, ?_⟩
  · intro hpos hlt
    have hk : MemoryCache.set m t0 k v (some ttl) k =
        some ⟨v, t0 + ttl * 1000⟩ := by
      simp [MemoryCache.set, Nat.pos_iff_ne_zero.mp hpos]
    simp only [MemoryCache.get, hk]
    rw [if_neg (by omega)]
  · intro hpos hlt
    have hk : MemoryCache.set m t0 k v (some ttl) k =
        some ⟨v, t0 + ttl * 1000⟩ := by
      simp [MemoryCache.set, Nat.pos_iff_ne_zero.mp hpos]
    simp only [MemoryCache.get, hk]
    rw [if_pos (by omega)]
    exact ⟨rfl, by simp [MemoryCache.erase]⟩
  · have hk : MemoryCache.set m t0 k v none k = some ⟨v, 0⟩ := by
      simp [MemoryCache.set]
    simp only [MemoryCache.get, hk]
    rw [if_neg (by omega)]

/-- C9, witness: a 1-second TTL entry set at time 0 is readable at 500 ms,
absent and purged at 2000 ms; a no-TTL entry is still readable much later. -/
theorem memoryCache_ttl_semantics_witness :
    (MemoryCache.get
      (MemoryCache.set (MemoryCacheState.empty Nat) 0 "k" 7 (some 1))
      500 "k").2 = some 7 ∧
    (MemoryCache.get
      (MemoryCache.set (MemoryCacheState.empty Nat) 0 "k" 7 (some 1))
      2000 "k").2 = none ∧
    (MemoryCache.get
      (MemoryCache.set (MemoryCacheState.empty Nat) 0 "k" 7 (some 1))
      2000 "k").1 "k" = none ∧
    (MemoryCache.get
      (MemoryCache.set (MemoryCacheState.empty Nat) 0 "k" 7 none)
      1000000 "k").2 = some 7 := by
  have h1 := memoryCache_ttl_semantics (MemoryCacheState.empty Nat) "k" 7 1 0 500
  have h2 := memoryCache_ttl_semantics (MemoryCacheState.empty Nat) "k" 7 1 0 2000
  have h3 := memoryCache_ttl_semantics (MemoryCacheState.empty Nat) "k" 7 1 0 1000000
  refine ⟨?_, (h2.2.1 (by omega) (by omega)).1, (h2.2.1 (by omega) (by omega)).2, ?_⟩
  · rw [h1.1 (by omega) (by omega)]
  · rw [h3.2.2]
